import Mathlib

/-!
Verification of the Unity license-server metrics exporter
(`src/main.rs`).  The development shallowly embeds the scrape pipeline:
JSON decoding of the two upstream responses (serde semantics with the
machine-integer range checks), the metrics assembler, the per-scrape
metric registry registrations, and the HTTP responder that maps the
assembler result to a 200 or 503 response.
-/

/-- Nested entitlement record decoded from the lease endpoint
(wire names are PascalCase: EnvironmentDomain and so on). -/
structure EntitlementContext where
  environment_domain : String
  environment_hostname : String
  environment_user : String
deriving DecidableEq, Repr

/-- One leased-license record; floating_lease_id is an i32 on the Rust
side, so decoding enforces the signed 32-bit range. -/
structure License where
  floating_lease_id : Int
  client_entitlement_context : EntitlementContext
  is_revoked : Bool
deriving DecidableEq, Repr

/-- Upstream health snapshot; server_up_time_ms is an i64 on the Rust
side, so decoding enforces the signed 64-bit range. -/
structure StatusReport where
  server_status : String
  server_up_time_ms : Int
deriving DecidableEq, Repr

/-- JSON values, restricted to integer numerals (the claims only
involve integer-valued wire fields). -/
inductive Json where
  | null : Json
  | bool (b : Bool) : Json
  | num (n : Int) : Json
  | str (s : String) : Json
  | arr (elems : List Json) : Json
  | obj (fields : List (String × Json)) : Json
deriving Repr

/-- Field lookup on a JSON object (serde ignores unknown fields and
reads known ones by name). -/
def Json.getField : Json → String → Option Json
  | .obj fields, k => (fields.find? (fun p => p.1 == k)).map (fun p => p.2)
  | _, _ => none

/-- Require a named field, as serde does for a non-optional struct
field. -/
def requireField (j : Json) (k : String) : Except String Json :=
  match j.getField k with
  | some v => .ok v
  | none => .error ("missing field " ++ k)

/-- Decode a JSON string. -/
def decodeString : Json → Except String String
  | .str s => .ok s
  | _ => .error "invalid type: expected a string"

/-- Decode a JSON boolean. -/
def decodeBool : Json → Except String Bool
  | .bool b => .ok b
  | _ => .error "invalid type: expected a boolean"

/-- Decode an i32: a JSON integer within the signed 32-bit range. -/
def decodeI32 : Json → Except String Int
  | .num n =>
    if -(2 ^ 31) ≤ n ∧ n ≤ 2 ^ 31 - 1 then .ok n
    else .error "invalid value: integer out of range for i32"
  | _ => .error "invalid type: expected an integer"

/-- Decode an i64: a JSON integer within the signed 64-bit range. -/
def decodeI64 : Json → Except String Int
  | .num n =>
    if -(2 ^ 63) ≤ n ∧ n ≤ 2 ^ 63 - 1 then .ok n
    else .error "invalid value: integer out of range for i64"
  | _ => .error "invalid type: expected an integer"

/-- Decode an EntitlementContext (PascalCase wire names). -/
def EntitlementContext.decode (j : Json) : Except String EntitlementContext := do
  let d ← decodeString (← requireField j "EnvironmentDomain")
  let h ← decodeString (← requireField j "EnvironmentHostname")
  let u ← decodeString (← requireField j "EnvironmentUser")
  .ok ⟨d, h, u⟩

/-- Decode a License (camelCase wire names; the id is an i32). -/
def License.decode (j : Json) : Except String License := do
  let id ← decodeI32 (← requireField j "floatingLeaseId")
  let ctx ← EntitlementContext.decode (← requireField j "clientEntitlementContext")
  let rev ← decodeBool (← requireField j "isRevoked")
  .ok ⟨id, ctx, rev⟩

/-- Decode a sequence of licenses element by element, failing at the
first element that fails (serde Vec semantics). -/
def decodeLicenses : List Json → Except String (List License)
  | [] => .ok []
  | j :: rest => do
    let l ← License.decode j
    let ls ← decodeLicenses rest
    .ok (l :: ls)

/-- Decode the lease endpoint body: a JSON array of licenses. -/
def decodeLicenseList : Json → Except String (List License)
  | .arr js => decodeLicenses js
  | _ => .error "invalid type: expected an array"

/-- Decode a StatusReport (camelCase wire names; uptime is an i64). -/
def StatusReport.decode (j : Json) : Except String StatusReport := do
  let s ← decodeString (← requireField j "serverStatus")
  let t ← decodeI64 (← requireField j "serverUpTimeMs")
  .ok ⟨s, t⟩

/-- Failure of one upstream call: the transport erred, or the body did
not decode. -/
inductive FetchError where
  | transport (msg : String) : FetchError
  | decode (msg : String) : FetchError
deriving DecidableEq, Repr

/-- Textual description of the error, as anyhow renders it into the
503 body. -/
def FetchError.message : FetchError → String
  | .transport m => m
  | .decode m => m

/-- The upstream license server as seen by one scrape: for each of the
two endpoints, either a transport-level error or a JSON body. -/
structure RawUpstream where
  statusResponse : Except String Json
  leaseResponse : Except String Json

/-- Model of reqwest get(status_endpoint) followed by json decoding:
the first question mark propagates transport errors, the second
propagates decode errors. -/
def fetch_status (r : Except String Json) : Except FetchError StatusReport :=
  match r with
  | .error m => .error (.transport m)
  | .ok j =>
    match StatusReport.decode j with
    | .ok sr => .ok sr
    | .error m => .error (.decode m)

/-- Model of reqwest get(lease_endpoint) followed by json decoding of
a Vec of License. -/
def fetch_leases (r : Except String Json) : Except FetchError (List License) :=
  match r with
  | .error m => .error (.transport m)
  | .ok j =>
    match decodeLicenseList j with
    | .ok ls => .ok ls
    | .error m => .error (.decode m)

/-- Label tuple of the uls_license_leased gauge vector, in the order
the label names are declared: lease_id, lease_user, lease_hostname,
lease_domain. -/
structure LeaseLabels where
  lease_id : String
  lease_user : String
  lease_hostname : String
  lease_domain : String
deriving DecidableEq, Repr

/-- Label values passed to with_label_values for one license:
the stringified id, then user, hostname, domain. -/
def licenseLabels (l : License) : LeaseLabels :=
  ⟨toString l.floating_lease_id,
   l.client_entitlement_context.environment_user,
   l.client_entitlement_context.environment_hostname,
   l.client_entitlement_context.environment_domain⟩

/-- Model of with_label_values(...).set(v) on a gauge vector: the
child at an existing label tuple is overwritten, a missing tuple is
created. -/
def setSample : List (LeaseLabels × Int) → LeaseLabels → Int → List (LeaseLabels × Int)
  | [], k, v => [(k, v)]
  | (k0, v0) :: rest, k, v =>
    if k0 = k then (k0, v) :: rest
    else (k0, v0) :: setSample rest k v

/-- The for-loop over the fetched licenses: set each sample at the
label tuple of the license, 0 when revoked and 1 otherwise. -/
def assembleLeases (report : List License) : List (LeaseLabels × Int) :=
  report.foldl
    (fun acc license =>
      setSample acc (licenseLabels license) (if license.is_revoked then 0 else 1))
    []

/-- Result of gathering the per-scrape registry: the two scalar
gauges, and the labeled family when it was registered (none when the
healthy branch was not taken). -/
structure MetricsOutput where
  uls_health : Int
  uls_uptime_ms : Int
  uls_license_leased : Option (List (LeaseLabels × Int))
deriving DecidableEq, Repr

/-- Core of the metrics assembler (the metrics function in main.rs up
to encoding): returns the gathered registry contents or the first
upstream error, paired with whether the lease endpoint was called. -/
def metricsOut (u : RawUpstream) : Except FetchError MetricsOutput × Bool :=
  match fetch_status u.statusResponse with
  | .error e => (.error e, false)
  | .ok status_report =>
    let health : Int := if status_report.server_status = "Healthy" then 1 else 0
    let uptime : Int := status_report.server_up_time_ms
    if status_report.server_status = "Healthy" then
      match fetch_leases u.leaseResponse with
      | .error e => (.error e, true)
      | .ok report => (.ok ⟨health, uptime, some (assembleLeases report)⟩, true)
    else
      (.ok ⟨health, uptime, none⟩, false)

/-- Render one label tuple in the exposition format. -/
def encodeLabels (ls : LeaseLabels) : String :=
  "\x7blease_id=\"" ++ ls.lease_id ++ "\",lease_user=\"" ++ ls.lease_user ++
    "\",lease_hostname=\"" ++ ls.lease_hostname ++ "\",lease_domain=\"" ++
    ls.lease_domain ++ "\"\x7d"

/-- Model of the prometheus TextEncoder on the gathered families
(families in name order: uls_health, uls_license_leased,
uls_uptime_ms). -/
def encodeMetricsOutput (out : MetricsOutput) : String :=
  "# HELP uls_health Health of the ULS\n# TYPE uls_health gauge\nuls_health " ++
    toString out.uls_health ++ "\n" ++
  (match out.uls_license_leased with
   | none => ""
   | some samples =>
     "# HELP uls_license_leased Currently leased ULS License\n# TYPE uls_license_leased gauge\n" ++
       String.join (samples.map (fun s =>
         "uls_license_leased" ++ encodeLabels s.1 ++ " " ++ toString s.2 ++ "\n"))) ++
  "# HELP uls_uptime_ms Uptime of the ULS in ms\n# TYPE uls_uptime_ms gauge\nuls_uptime_ms " ++
    toString out.uls_uptime_ms ++ "\n"

/-- The metrics function of main.rs: assemble, then encode the
registry to text. -/
def metrics (u : RawUpstream) : Except FetchError String × Bool :=
  match metricsOut u with
  | (.error e, b) => (.error e, b)
  | (.ok out, b) => (.ok (encodeMetricsOutput out), b)

/-- Rust str split on a single-character pattern, here the newline. -/
def splitChar (c : Char) : List Char → List (List Char)
  | [] => [[]]
  | a :: as =>
    if a = c then [] :: splitChar c as
    else
      match splitChar c as with
      | [] => [[a]]
      | p :: ps => (a :: p) :: ps

/-- Rust Vec join with a separator. -/
def joinWith (sep : List Char) : List (List Char) → List Char
  | [] => []
  | [p] => p
  | p :: ps => p ++ sep ++ joinWith sep ps

/-- First line of the 503 body, before the newline of the format
string. -/
def errHeaderLine : List Char :=
  "# An error occured while trying to contact the license server: ".toList

/-- The 503 body built in metrics_handle: the header, then the error
description with every line of it prefixed by the comment marker. -/
def errorBody (msg : String) : String :=
  ⟨errHeaderLine ++ '\n' :: '#' :: ' ' ::
    joinWith ['\n', '#', ' '] (splitChar '\n' msg.toList)⟩

/-- HTTP response produced by the metrics route. -/
structure HttpResponse where
  status : Nat
  body : String
deriving DecidableEq, Repr

/-- The metrics_handle route handler: 200 with the encoded text on
success, 503 with the commented error text on failure; paired with
whether the lease endpoint was called. -/
def metrics_handle (u : RawUpstream) : HttpResponse × Bool :=
  match metrics u with
  | (.ok s, b) => (⟨200, s⟩, b)
  | (.error e, b) => (⟨503, errorBody e.message⟩, b)

/-- Prometheus metric-name validity: first character alphabetic, an
underscore or a colon; later characters may also be digits. -/
def validMetricName (s : String) : Bool :=
  match s.toList with
  | [] => false
  | c :: cs =>
    (c.isAlpha || c = '_' || c = ':') &&
      cs.all (fun d => d.isAlpha || d.isDigit || d = '_' || d = ':')

/-- Prometheus label-name validity: like metric names but without the
colon. -/
def validLabelName (s : String) : Bool :=
  match s.toList with
  | [] => false
  | c :: cs =>
    (c.isAlpha || c = '_') && cs.all (fun d => d.isAlpha || d.isDigit || d = '_')

/-- A registry is the list of names of registered collectors. -/
abbrev Registry := List String

/-- Registry register: fails when a collector with the same name is
already registered. -/
def Registry.register (r : Registry) (name : String) : Except String Registry :=
  if name ∈ r then .error "duplicate metrics collector registration attempted"
  else .ok (r ++ [name])

/-- IntGauge new: the question-marked constructor, failing on an
invalid metric name. -/
def intGaugeNew (name : String) : Except String String :=
  if validMetricName name then .ok name else .error "invalid metric name"

/-- IntGaugeVec new: the question-marked constructor, failing on an
invalid metric name or label name. -/
def intGaugeVecNew (name : String) (labels : List String) : Except String String :=
  if validMetricName name && labels.all validLabelName then .ok name
  else .error "invalid metric or label name"

/-- The sequence of gauge constructions and registry registrations a
scrape performs on its fresh registry, for the healthy and the
unhealthy branch. -/
def registerScrapeMetrics (healthy : Bool) : Except String Registry := do
  let r : Registry := []
  let hname ← intGaugeNew "uls_health"
  let uname ← intGaugeNew "uls_uptime_ms"
  let r ← r.register hname
  let r ← r.register uname
  if healthy then
    let lname ← intGaugeVecNew "uls_license_leased"
      ["lease_id", "lease_user", "lease_hostname", "lease_domain"]
    r.register lname
  else
    .ok r

/-- Status endpoint body with the given serverStatus and
serverUpTimeMs. -/
def statusJson (s : String) (n : Int) : Json :=
  .obj [("serverStatus", .str s), ("serverUpTimeMs", .num n)]

/-- One lease record body. -/
def leaseJson (id : Int) (domain hostname user : String) (revoked : Bool) : Json :=
  .obj [("floatingLeaseId", .num id),
        ("clientEntitlementContext",
          .obj [("EnvironmentDomain", .str domain),
                ("EnvironmentHostname", .str hostname),
                ("EnvironmentUser", .str user)]),
        ("isRevoked", .bool revoked)]

/-- Upstream reporting a non-healthy status; the lease endpoint body
is irrelevant. -/
def upstreamDown : RawUpstream := ⟨.ok (statusJson "Down" 0), .error "unused"⟩

/-- The healthy one-lease scenario of the specification. -/
def upstreamScenario : RawUpstream :=
  ⟨.ok (statusJson "Healthy" 123456), .ok (.arr [leaseJson 7 "corp" "host1" "alice" false])⟩

/-- A second upstream with byte-identical responses to the scenario
upstream. -/
def upstreamScenarioCopy : RawUpstream :=
  ⟨.ok (statusJson "Healthy" 123456), .ok (.arr [leaseJson 7 "corp" "host1" "alice" false])⟩

/-- Upstream whose status call fails at the transport level. -/
def upstreamFail : RawUpstream := ⟨.error "connection refused", .error "unused"⟩

/-- Upstream that is healthy but whose lease call fails at the
transport level. -/
def upstreamLeaseFail : RawUpstream := ⟨.ok (statusJson "Healthy" 5), .error "lease down"⟩

example : metricsOut upstreamDown = (.ok ⟨0, 0, none⟩, false) := rfl

example : metricsOut upstreamScenario =
    (.ok ⟨1, 123456, some [(⟨"7", "alice", "host1", "corp"⟩, 1)]⟩, true) := rfl

/-- C1: when the status fetch succeeds, the lease endpoint is called
if and only if server_status is exactly Healthy; for a non-healthy
report the output has no uls_license_leased family at all and the
lease endpoint is never called. -/
theorem lease_fetch_iff_healthy (u : RawUpstream) (sr : StatusReport)
    (h : fetch_status u.statusResponse = .ok sr) :
    ((metricsOut u).2 = true ↔ sr.server_status = "Healthy") ∧
    (sr.server_status ≠ "Healthy" →
      ∃ out, (metricsOut u).1 = .ok out ∧
        out.uls_license_leased = none ∧ (metricsOut u).2 = false) := by
  unfold metricsOut
  rw [h]
  by_cases hh : sr.server_status = "Healthy"
  · cases hl : fetch_leases u.leaseResponse <;> simp [hh, hl]
  · simp [hh]

theorem lease_fetch_iff_healthy_witness :
    ((metricsOut upstreamDown).2 = true ↔ ("Down" : String) = "Healthy") ∧
    (("Down" : String) ≠ "Healthy" →
      ∃ out, (metricsOut upstreamDown).1 = .ok out ∧
        out.uls_license_leased = none ∧ (metricsOut upstreamDown).2 = false) :=
  lease_fetch_iff_healthy upstreamDown ⟨"Down", 0⟩ rfl

/-- C2: on every scrape whose assembly succeeds, uls_health is 1
exactly when server_status equals Healthy and 0 otherwise, and
uls_uptime_ms equals the decoded server_up_time_ms. -/
theorem gauges_from_status (u : RawUpstream) (sr : StatusReport) (out : MetricsOutput)
    (hs : fetch_status u.statusResponse = .ok sr)
    (ho : (metricsOut u).1 = .ok out) :
    out.uls_health = (if sr.server_status = "Healthy" then 1 else 0) ∧
    out.uls_uptime_ms = sr.server_up_time_ms := by
  unfold metricsOut at ho
  rw [hs] at ho
  by_cases hh : sr.server_status = "Healthy"
  · cases hl : fetch_leases u.leaseResponse with
    | error e => rw [hl] at ho; simp [hh] at ho
    | ok report =>
      rw [hl] at ho
      simp [hh] at ho
      rw [← ho]
      simp [hh]
  · simp [hh] at ho
    rw [← ho]
    simp [hh]

theorem gauges_from_status_witness :
    ((⟨1, 123456, some [(⟨"7", "alice", "host1", "corp"⟩, 1)]⟩ : MetricsOutput).uls_health =
      (if ("Healthy" : String) = "Healthy" then 1 else 0)) ∧
    ((⟨1, 123456, some [(⟨"7", "alice", "host1", "corp"⟩, 1)]⟩ : MetricsOutput).uls_uptime_ms =
      (123456 : Int)) :=
  gauges_from_status upstreamScenario ⟨"Healthy", 123456⟩
    ⟨1, 123456, some [(⟨"7", "alice", "host1", "corp"⟩, 1)]⟩ rfl rfl

/-- C3: when the status fetch fails, the assembler returns that error
with no partial output, the lease endpoint is never called, and the
route responds 503. -/
theorem status_failure_aborts (u : RawUpstream) (e : FetchError)
    (h : fetch_status u.statusResponse = .error e) :
    (metricsOut u).1 = .error e ∧ (metricsOut u).2 = false ∧
    (metrics_handle u).1.status = 503 ∧
    (metrics_handle u).1.body = errorBody e.message := by
  unfold metrics_handle metrics metricsOut
  rw [h]
  simp

theorem status_failure_aborts_witness :
    (metricsOut upstreamFail).1 = .error (.transport "connection refused") ∧
    (metricsOut upstreamFail).2 = false ∧
    (metrics_handle upstreamFail).1.status = 503 ∧
    (metrics_handle upstreamFail).1.body = errorBody "connection refused" :=
  status_failure_aborts upstreamFail (.transport "connection refused") rfl

/-- C4: when the status is healthy but the lease fetch fails, the
whole scrape fails atomically: the assembler returns the lease error
and the route responds 503 with the commented error body, never a
partial 200. -/
theorem lease_failure_atomic (u : RawUpstream) (sr : StatusReport) (e : FetchError)
    (hs : fetch_status u.statusResponse = .ok sr)
    (hh : sr.server_status = "Healthy")
    (hl : fetch_leases u.leaseResponse = .error e) :
    (metricsOut u).1 = .error e ∧
    (metrics_handle u).1 = ⟨503, errorBody e.message⟩ := by
  unfold metrics_handle metrics metricsOut
  rw [hs]
  simp [hh, hl]

theorem lease_failure_atomic_witness :
    (metricsOut upstreamLeaseFail).1 = .error (.transport "lease down") ∧
    (metrics_handle upstreamLeaseFail).1 = ⟨503, errorBody "lease down"⟩ :=
  lease_failure_atomic upstreamLeaseFail ⟨"Healthy", 5⟩ (.transport "lease down") rfl rfl rfl

/-- C7: the assembly pipeline is deterministic in the upstream
responses: identical status responses, and identical lease responses
whenever the status is healthy, yield identical assembler results. -/
theorem scrape_deterministic (u1 u2 : RawUpstream)
    (hs : u1.statusResponse = u2.statusResponse)
    (hl : ∀ sr, fetch_status u1.statusResponse = Except.ok sr →
      sr.server_status = "Healthy" → u1.leaseResponse = u2.leaseResponse) :
    metricsOut u1 = metricsOut u2 := by
  unfold metricsOut
  rw [← hs]
  cases hst : fetch_status u1.statusResponse with
  | error e => rfl
  | ok sr =>
    by_cases hh : sr.server_status = "Healthy"
    · rw [hl sr hst hh]
    · simp [hh]

theorem scrape_deterministic_witness :
    metricsOut upstreamScenario = metricsOut upstreamScenarioCopy :=
  scrape_deterministic upstreamScenario upstreamScenarioCopy rfl (fun _ _ _ => rfl)

lemma setSample_not_mem (acc : List (LeaseLabels × Int)) (k : LeaseLabels) (v : Int)
    (h : k ∉ acc.map Prod.fst) : setSample acc k v = acc ++ [(k, v)] := by
  induction acc with
  | nil => rfl
  | cons p rest ih =>
    obtain ⟨k0, v0⟩ := p
    simp only [List.map_cons, List.mem_cons, not_or] at h
    rw [setSample, if_neg (fun he => h.1 he.symm), ih h.2, List.cons_append]

lemma assembleLoop_nodup (report : List License) (acc : List (LeaseLabels × Int))
    (hnd : (report.map licenseLabels).Nodup)
    (hdisj : ∀ l ∈ report, licenseLabels l ∉ acc.map Prod.fst) :
    report.foldl
      (fun acc license =>
        setSample acc (licenseLabels license) (if license.is_revoked then 0 else 1))
      acc =
      acc ++ report.map (fun l => (licenseLabels l, if l.is_revoked then (0 : Int) else 1)) := by
  induction report generalizing acc with
  | nil => simp
  | cons l rest ih =>
    rw [List.foldl_cons, setSample_not_mem acc _ _ (hdisj l (List.mem_cons_self l rest))]
    rw [List.map_cons, List.nodup_cons] at hnd
    rw [ih _ hnd.2]
    · simp
    · intro l2 hl2
      simp only [List.map_append, List.map_cons, List.map_nil, List.mem_append,
        List.mem_singleton, not_or]
      refine ⟨hdisj l2 (List.mem_cons_of_mem l hl2), fun he => ?_⟩
      exact hnd.1 (he ▸ List.mem_map_of_mem licenseLabels hl2)

/-- C5: on a healthy scrape the gathered uls_license_leased family is
exactly the fold of the fetched list; with pairwise-distinct label
tuples this is one sample per license, 0 when revoked and 1
otherwise, and a pair of licenses sharing a label tuple yields one
sample carrying the value of the later license. -/
theorem lease_samples (u : RawUpstream) (sr : StatusReport) (report : List License)
    (hs : fetch_status u.statusResponse = .ok sr)
    (hh : sr.server_status = "Healthy")
    (hl : fetch_leases u.leaseResponse = .ok report) :
    ((metricsOut u).1 =
      .ok ⟨1, sr.server_up_time_ms, some (assembleLeases report)⟩) ∧
    ((report.map licenseLabels).Nodup →
      assembleLeases report =
        report.map (fun l => (licenseLabels l, if l.is_revoked then (0 : Int) else 1))) ∧
    (∀ l1 l2 : License, licenseLabels l1 = licenseLabels l2 →
      assembleLeases [l1, l2] =
        [(licenseLabels l1, if l2.is_revoked then (0 : Int) else 1)]) := by
  refine ⟨?_, ?_, ?_⟩
  · unfold metricsOut
    rw [hs]
    simp [hh, hl]
  · intro hnd
    rw [assembleLeases, assembleLoop_nodup report [] hnd (by simp)]
    simp
  · intro l1 l2 he
    simp [assembleLeases, setSample, he]

/-- Upstream with two leases carrying distinct label tuples, the
second one revoked. -/
def upstreamTwoLeases : RawUpstream :=
  ⟨.ok (statusJson "Healthy" 1),
   .ok (.arr [leaseJson 7 "corp" "host1" "alice" false,
              leaseJson 8 "corp" "host2" "bob" true])⟩

/-- The two decoded licenses of upstreamTwoLeases. -/
def twoLeases : List License :=
  [⟨7, ⟨"corp", "host1", "alice"⟩, false⟩, ⟨8, ⟨"corp", "host2", "bob"⟩, true⟩]

theorem lease_samples_witness :
    ((metricsOut upstreamTwoLeases).1 =
      .ok ⟨1, 1, some (assembleLeases twoLeases)⟩) ∧
    ((twoLeases.map licenseLabels).Nodup →
      assembleLeases twoLeases =
        twoLeases.map (fun l => (licenseLabels l, if l.is_revoked then (0 : Int) else 1))) ∧
    (∀ l1 l2 : License, licenseLabels l1 = licenseLabels l2 →
      assembleLeases [l1, l2] =
        [(licenseLabels l1, if l2.is_revoked then (0 : Int) else 1)]) :=
  lease_samples upstreamTwoLeases ⟨"Healthy", 1⟩ twoLeases rfl rfl rfl

/-- C10: the per-scrape gauge constructions and registrations always
succeed on the fresh registry, in both the healthy and the unhealthy
branch, so the unwrap after each register call can never panic. -/
theorem registration_never_fails :
    registerScrapeMetrics true = .ok ["uls_health", "uls_uptime_ms", "uls_license_leased"] ∧
    registerScrapeMetrics false = .ok ["uls_health", "uls_uptime_ms"] :=
  ⟨rfl, rfl⟩

lemma splitChar_ne_nil (c : Char) (l : List Char) : splitChar c l ≠ [] := by
  cases l with
  | nil => simp [splitChar]
  | cons a as =>
    rw [splitChar]
    split
    · simp
    · split <;> simp

lemma not_mem_of_mem_splitChar (c : Char) (l : List Char) (p : List Char)
    (hp : p ∈ splitChar c l) : c ∉ p := by
  induction l generalizing p with
  | nil =>
    simp only [splitChar, List.mem_singleton] at hp
    subst hp
    simp
  | cons a as ih =>
    rw [splitChar] at hp
    by_cases h : a = c
    · rw [if_pos h] at hp
      rcases List.mem_cons.mp hp with h1 | h2
      · subst h1; simp
      · exact ih p h2
    · rw [if_neg h] at hp
      cases hs : splitChar c as with
      | nil => exact absurd hs (splitChar_ne_nil c as)
      | cons q qs =>
        rw [hs] at hp
        rcases List.mem_cons.mp hp with h1 | h2
        · subst h1
          intro hc
          rcases List.mem_cons.mp hc with h3 | h4
          · exact h h3.symm
          · exact ih q (hs ▸ List.mem_cons_self q qs) h4
        · exact ih p (hs ▸ List.mem_cons_of_mem q h2)

lemma splitChar_no_sep (c : Char) (p : List Char) (h : c ∉ p) : splitChar c p = [p] := by
  induction p with
  | nil => rfl
  | cons a as ih =>
    simp only [List.mem_cons, not_or] at h
    rw [splitChar, if_neg (fun he => h.1 he.symm), ih h.2]

lemma splitChar_append (c : Char) (p t : List Char) (h : c ∉ p) :
    splitChar c (p ++ c :: t) = p :: splitChar c t := by
  induction p with
  | nil => simp [splitChar]
  | cons a as ih =>
    simp only [List.mem_cons, not_or] at h
    rw [List.cons_append, splitChar, if_neg (fun he => h.1 he.symm), ih h.2]

lemma joinWith_cons (sep : List Char) (p : List Char) (L : List (List Char))
    (hL : L ≠ []) : joinWith sep (p :: L) = p ++ sep ++ joinWith sep L := by
  cases L with
  | nil => contradiction
  | cons q qs => rfl

lemma splitChar_joinWith (c : Char) (ps : List (List Char)) (hne : ps ≠ [])
    (h : ∀ p ∈ ps, c ∉ p) : splitChar c (joinWith [c] ps) = ps := by
  induction ps with
  | nil => contradiction
  | cons p rest ih =>
    cases rest with
    | nil =>
      rw [joinWith, splitChar_no_sep c p (h p (List.mem_singleton.mpr rfl))]
    | cons q qs =>
      rw [joinWith_cons _ _ _ (by simp), List.append_assoc, List.singleton_append]
      rw [splitChar_append c p _ (h p (List.mem_cons_self p _))]
      rw [ih (by simp) (fun r hr => h r (List.mem_cons_of_mem p hr))]

lemma comment_shift (ps : List (List Char)) (hne : ps ≠ []) :
    '#' :: ' ' :: joinWith ['\n', '#', ' '] ps =
      joinWith ['\n'] (ps.map (fun p => '#' :: ' ' :: p)) := by
  induction ps with
  | nil => contradiction
  | cons p rest ih =>
    cases rest with
    | nil => rfl
    | cons q qs =>
      rw [joinWith_cons ['\n', '#', ' '] p (q :: qs) (by simp), List.map_cons,
        joinWith_cons ['\n'] ('#' :: ' ' :: p)
          ((q :: qs).map (fun r => '#' :: ' ' :: r)) (by simp),
        ← ih (by simp)]
      simp

lemma errorBody_toList (msg : String) :
    (errorBody msg).toList =
      joinWith ['\n']
        (errHeaderLine ::
          (splitChar '\n' msg.toList).map (fun p => '#' :: ' ' :: p)) := by
  have hb : (errorBody msg).toList =
      errHeaderLine ++ '\n' :: '#' :: ' ' ::
        joinWith ['\n', '#', ' '] (splitChar '\n' msg.toList) := rfl
  rw [hb, comment_shift _ (splitChar_ne_nil _ _),
    joinWith_cons _ _ _ (by simp [splitChar_ne_nil])]
  simp

lemma errorBody_splitLines (msg : String) :
    splitChar '\n' (errorBody msg).toList =
      errHeaderLine ::
        (splitChar '\n' msg.toList).map (fun p => '#' :: ' ' :: p) := by
  rw [errorBody_toList]
  apply splitChar_joinWith
  · simp
  · intro p hp
    rcases List.mem_cons.mp hp with h | h
    · subst h
      decide
    · obtain ⟨q, hq, rfl⟩ := List.mem_map.mp h
      intro hc
      rcases List.mem_cons.mp hc with h3 | h4
      · exact absurd h3 (by decide)
      · rcases List.mem_cons.mp h4 with h5 | h6
        · exact absurd h5 (by decide)
        · exact not_mem_of_mem_splitChar '\n' msg.toList q hq h6

/-- C6: any assembler failure produces a 503 response whose body is
the comment header followed by the error description, and every line
of the body starts with the comment marker. -/
theorem error_response_commented (u : RawUpstream) (e : FetchError)
    (h : (metricsOut u).1 = .error e) :
    (metrics_handle u).1 = ⟨503, errorBody e.message⟩ ∧
    splitChar '\n' (metrics_handle u).1.body.toList =
      errHeaderLine ::
        (splitChar '\n' e.message.toList).map (fun p => '#' :: ' ' :: p) ∧
    ∀ line ∈ splitChar '\n' (metrics_handle u).1.body.toList,
      line.head? = some '#' := by
  have hr : (metrics_handle u).1 = ⟨503, errorBody e.message⟩ := by
    unfold metrics_handle metrics
    rcases hm : metricsOut u with ⟨res, b⟩
    have h1 : res = .error e := by rw [hm] at h; exact h
    subst h1
    rfl
  refine ⟨hr, ?_, ?_⟩
  · rw [hr]
    exact errorBody_splitLines e.message
  · rw [hr]
    show ∀ line ∈ splitChar '\n' (errorBody e.message).toList, line.head? = some '#'
    rw [errorBody_splitLines]
    intro line hline
    rcases List.mem_cons.mp hline with h1 | h2
    · subst h1; rfl
    · obtain ⟨q, _, rfl⟩ := List.mem_map.mp h2
      rfl

/-- Upstream failing with a multi-line transport error. -/
def upstreamMultiFail : RawUpstream :=
  ⟨.error "error sending request\ncaused by: connect refused", .error "unused"⟩

theorem error_response_commented_witness :
    (metrics_handle upstreamMultiFail).1 =
      ⟨503, errorBody "error sending request\ncaused by: connect refused"⟩ ∧
    splitChar '\n' (metrics_handle upstreamMultiFail).1.body.toList =
      errHeaderLine ::
        (splitChar '\n' ("error sending request\ncaused by: connect refused" : String).toList).map
          (fun p => '#' :: ' ' :: p) ∧
    ∀ line ∈ splitChar '\n' (metrics_handle upstreamMultiFail).1.body.toList,
      line.head? = some '#' :=
  error_response_commented upstreamMultiFail
    (.transport "error sending request\ncaused by: connect refused") rfl

@[simp] lemma except_bind_ok {α β : Type} (a : α) (f : α → Except String β) :
    (Except.ok a >>= f) = f a := rfl

@[simp] lemma except_bind_error {α β : Type} (m : String) (f : α → Except String β) :
    ((Except.error m : Except String α) >>= f) = Except.error m := rfl

lemma license_decode_id_out_of_range (j : Json) (n : Int)
    (hf : j.getField "floatingLeaseId" = some (.num n))
    (hr : n < -(2 ^ 31) ∨ 2 ^ 31 - 1 < n) :
    ∃ m, License.decode j = .error m := by
  have hi : decodeI32 (.num n) = .error "invalid value: integer out of range for i32" := by
    show (if -(2 ^ 31) ≤ n ∧ n ≤ 2 ^ 31 - 1 then Except.ok n
      else Except.error "invalid value: integer out of range for i32") = _
    rw [if_neg]
    rintro ⟨h1, h2⟩
    rcases hr with h | h <;> omega
  refine ⟨"invalid value: integer out of range for i32", ?_⟩
  unfold License.decode requireField
  rw [hf]
  simp [hi]

lemma decodeLicenses_mem_error (js : List Json) (j : Json) (hj : j ∈ js)
    (he : ∃ m, License.decode j = .error m) :
    ∃ m, decodeLicenses js = .error m := by
  induction js with
  | nil => simp at hj
  | cons a rest ih =>
    rcases List.mem_cons.mp hj with h | h
    · subst h
      obtain ⟨m, hm⟩ := he
      exact ⟨m, by rw [decodeLicenses]; simp [hm]⟩
    · cases ha : License.decode a with
      | error m => exact ⟨m, by rw [decodeLicenses]; simp [ha]⟩
      | ok l =>
        obtain ⟨m, hm⟩ := ih h
        exact ⟨m, by rw [decodeLicenses]; simp [ha, hm]⟩

/-- C8: a lease record whose floatingLeaseId is outside the signed
32-bit range fails the decoding of the whole list, so on a healthy
scrape such an upstream lease body makes the assembler fail with a
decode error and the route respond 503 instead of emitting samples
for the remaining licenses. -/
theorem oversized_lease_id_fails_scrape (js : List Json) (j : Json) (n : Int)
    (hj : j ∈ js)
    (hf : j.getField "floatingLeaseId" = some (.num n))
    (hr : n < -(2 ^ 31) ∨ 2 ^ 31 - 1 < n) :
    (∃ m, decodeLicenseList (.arr js) = .error m) ∧
    ∀ u : RawUpstream, u.leaseResponse = .ok (.arr js) →
      ∀ sr, fetch_status u.statusResponse = .ok sr → sr.server_status = "Healthy" →
        (∃ m, (metricsOut u).1 = .error (.decode m)) ∧
        (metrics_handle u).1.status = 503 := by
  obtain ⟨m, hm⟩ := decodeLicenses_mem_error js j hj
    (license_decode_id_out_of_range j n hf hr)
  have hlist : decodeLicenseList (.arr js) = .error m := by
    rw [decodeLicenseList]; exact hm
  refine ⟨⟨m, hlist⟩, ?_⟩
  intro u hu sr hsr hh
  have hfl : fetch_leases u.leaseResponse = .error (.decode m) := by
    rw [hu, fetch_leases, hlist]
  have hout : (metricsOut u).1 = .error (.decode m) := by
    unfold metricsOut
    rw [hsr]
    simp [hh, hfl]
  refine ⟨⟨m, hout⟩, ?_⟩
  unfold metrics_handle metrics
  rcases hmo : metricsOut u with ⟨res, b⟩
  have h1 : res = .error (.decode m) := by rw [hmo] at hout; exact hout
  subst h1
  rfl

/-- Lease list whose single record carries an id one past the i32
maximum. -/
def oversizedLeaseJs : List Json := [leaseJson (2 ^ 31) "corp" "host1" "alice" false]

/-- Upstream that is healthy but serves the oversized lease id. -/
def upstreamOversized : RawUpstream :=
  ⟨.ok (statusJson "Healthy" 1), .ok (.arr oversizedLeaseJs)⟩

theorem oversized_lease_id_fails_scrape_witness :
    ((∃ m, decodeLicenseList (.arr oversizedLeaseJs) = .error m) ∧
      ∀ u : RawUpstream, u.leaseResponse = .ok (.arr oversizedLeaseJs) →
        ∀ sr, fetch_status u.statusResponse = .ok sr → sr.server_status = "Healthy" →
          (∃ m, (metricsOut u).1 = .error (.decode m)) ∧
          (metrics_handle u).1.status = 503) ∧
    (metrics_handle upstreamOversized).1.status = 503 := by
  have h := oversized_lease_id_fails_scrape oversizedLeaseJs
    (leaseJson (2 ^ 31) "corp" "host1" "alice" false) (2 ^ 31)
    (List.mem_singleton.mpr rfl) rfl (Or.inr (by norm_num))
  exact ⟨h, (h.2 upstreamOversized rfl ⟨"Healthy", 1⟩ rfl rfl).2⟩

/-- C9: the decoder accepts any in-range i64 for serverUpTimeMs with
no non-negativity check, and a negative value flows verbatim into the
uls_uptime_ms gauge of a successful scrape, in both the unhealthy and
the healthy branch. -/
theorem negative_uptime_passes (s : String) (n : Int)
    (hlo : -(2 ^ 63) ≤ n) (hhi : n ≤ 2 ^ 63 - 1) (_hneg : n < 0) :
    StatusReport.decode (statusJson s n) = .ok ⟨s, n⟩ ∧
    (∀ u : RawUpstream, u.statusResponse = .ok (statusJson s n) → s ≠ "Healthy" →
      (metricsOut u).1 = .ok ⟨0, n, none⟩) ∧
    (∀ u : RawUpstream, u.statusResponse = .ok (statusJson s n) → s = "Healthy" →
      ∀ report, fetch_leases u.leaseResponse = .ok report →
        (metricsOut u).1 = .ok ⟨1, n, some (assembleLeases report)⟩) := by
  have hdec : StatusReport.decode (statusJson s n) = .ok ⟨s, n⟩ := by
    have hi : decodeI64 (.num n) = .ok n := by
      show (if -(2 ^ 63) ≤ n ∧ n ≤ 2 ^ 63 - 1 then Except.ok n
        else Except.error "invalid value: integer out of range for i64") = _
      rw [if_pos ⟨hlo, hhi⟩]
    unfold StatusReport.decode statusJson requireField Json.getField
    simp [decodeString, List.find?, hi]
  have hfs : ∀ u : RawUpstream, u.statusResponse = .ok (statusJson s n) →
      fetch_status u.statusResponse = .ok ⟨s, n⟩ := by
    intro u hu
    rw [hu, fetch_status, hdec]
  refine ⟨hdec, ?_, ?_⟩
  · intro u hu hns
    unfold metricsOut
    rw [hfs u hu]
    simp [hns]
  · intro u hu hhe report hrep
    unfold metricsOut
    rw [hfs u hu]
    simp [hhe, hrep]

/-- Upstream reporting a negative uptime with a non-healthy status. -/
def upstreamNegativeUptime : RawUpstream :=
  ⟨.ok (statusJson "Down" (-5)), .error "unused"⟩

theorem negative_uptime_passes_witness :
    (StatusReport.decode (statusJson "Down" (-5)) = .ok ⟨"Down", -5⟩ ∧
      (∀ u : RawUpstream, u.statusResponse = .ok (statusJson "Down" (-5)) →
        ("Down" : String) ≠ "Healthy" → (metricsOut u).1 = .ok ⟨0, -5, none⟩) ∧
      (∀ u : RawUpstream, u.statusResponse = .ok (statusJson "Down" (-5)) →
        ("Down" : String) = "Healthy" →
        ∀ report, fetch_leases u.leaseResponse = .ok report →
          (metricsOut u).1 = .ok ⟨1, -5, some (assembleLeases report)⟩)) ∧
    (metricsOut upstreamNegativeUptime).1 = .ok ⟨0, -5, none⟩ := by
  have h := negative_uptime_passes "Down" (-5) (by norm_num) (by norm_num) (by norm_num)
  exact ⟨h, h.2.1 upstreamNegativeUptime rfl (by decide)⟩
